import Mathlib

/-!
Shallow embedding of `afra/methods/fit.py`: the `fit` orchestrator class and
its two statistic variants `gaussfit` and `hlfit`.

Modelling conventions:
* numpy float64 scalars are modelled as `Option ℚ`, where `none` stands for
  NaN (the claims under study do not depend on rounding or on infinities other
  than through `np.nan_to_num(±inf)`, which is the largest finite float64 and
  is modelled by the exact rational constant `FLOATMAX`);
* numpy arrays are a shape together with a flat entry list;
* Python `dict`s are association lists with first-match lookup and
  replace-or-append update, which preserves Python's insertion-order
  semantics for `keys()`;
* Python exceptions (AssertionError, ValueError, KeyError, ...) appear as an
  `Except Err` result; an exception raised part-way through a loop abandons
  the intermediate model mutations, which the claims never observe;
* the external collaborators (`umap`/`gvec`/`hvec` helpers, the linear-algebra
  solve, and the emcee/dynesty/iminuit engines) are opaque per the module's
  contract and enter as parameters (`Helpers`, `Engines`);
* the model-adapter contract (`.params`, `.paramrange`, `.blacklist`,
  `.reset(partial)` updating the parameter mapping, `.bandpower()` a function
  of the current parameters) is embedded as the `Model` structure.
-/

namespace Afra

/-- A float64 value: `none` is NaN, `some q` a finite value. -/
abbrev RV := Option ℚ

def RV.add : RV → RV → RV
  | some a, some b => some (a + b)
  | _, _ => none

def RV.sub : RV → RV → RV
  | some a, some b => some (a - b)
  | _, _ => none

def RV.mul : RV → RV → RV
  | some a, some b => some (a * b)
  | _, _ => none

def RV.isnan (x : RV) : Bool := x.isNone

/-- An n-dimensional numpy array: shape plus flat entries. -/
structure NDArray where
  shape : List ℕ
  entries : List RV
deriving DecidableEq

def NDArray.ndim (a : NDArray) : ℕ := a.shape.length

/-- `np.isnan(a).any()` -/
def NDArray.hasNaN (a : NDArray) : Bool := a.entries.any RV.isnan

/-- Elementwise `+` (used on same-shaped operands only). -/
def NDArray.add (a b : NDArray) : NDArray :=
  ⟨a.shape, List.zipWith RV.add a.entries b.entries⟩

/-- Elementwise `-` (used on same-shaped operands only). -/
def NDArray.sub (a b : NDArray) : NDArray :=
  ⟨a.shape, List.zipWith RV.sub a.entries b.entries⟩

/-- `np.zeros_like(a)` -/
def zerosLike (a : NDArray) : NDArray :=
  ⟨a.shape, a.entries.map (fun _ => some 0)⟩

def listHasNaN (l : List RV) : Bool := l.any RV.isnan

/-- `np.vdot` over real vectors: sum of elementwise products, NaN-propagating. -/
def vdot (a b : List RV) : RV := (List.zipWith RV.mul a b).foldl RV.add (some 0)

/-- `np.nan_to_num(np.inf)`: the largest finite float64, `(2^53-1)·2^971`,
built directly as a reduced fraction so that it evaluates cheaply. -/
def FLOATMAX : ℚ :=
  ⟨179769313486231570814527423731704356798070567525844996598917476803157260780028538760589558632766878171540458953514382464234321326889464182768467546703537516986049910576551282076245490090389328944075868508455133942304583236903222948165808559332123348274797826204144723168738177180919299881250404026184124858368, 1, by decide, by decide⟩

/-- A Python `dict` keyed by strings. -/
abbrev SDict (α : Type) := List (String × α)

/-- `d[k] = v`: replace in place when the key exists, else append. -/
def dictSet {α : Type} (d : SDict α) (k : String) (v : α) : SDict α :=
  if d.any (fun p => p.1 == k) then
    d.map (fun p => if p.1 == k then (k, v) else p)
  else d ++ [(k, v)]

/-- `d.update(δ)` -/
def dictUpdate {α : Type} (d δ : SDict α) : SDict α :=
  δ.foldl (fun a p => dictSet a p.1 p.2) d

/-- `d[k]` as an option. -/
def dictLookup {α : Type} (d : SDict α) (k : String) : Option α :=
  (d.find? (fun p => p.1 == k)).map (·.2)

/-- `d.keys()` -/
def dictKeys {α : Type} (d : SDict α) : List String := d.map (·.1)

/-- Insertion into an alphabetically sorted list. -/
def insertSorted (x : String) : List String → List String
  | [] => [x]
  | y :: ys => if x ≤ y then x :: y :: ys else y :: insertSorted x ys

/-- Python `sorted(...)` on a set of names (lexicographic). -/
def sortStrings (l : List String) : List String := l.foldr insertSorted []

/-- The model-adapter contract (foreground/background sky model). -/
structure Model where
  params : SDict ℚ
  paramrange : SDict (ℚ × ℚ)
  blacklist : List String
  bandpowerFn : SDict ℚ → NDArray

/-- `.reset(partial)`: pushes a partial parameter update into the model. -/
def Model.reset (m : Model) (δ : SDict ℚ) : Model :=
  { m with params := dictUpdate m.params δ }

/-- `.bandpower()`: prediction from the model's current parameter state. -/
def Model.bandpower (m : Model) : NDArray := m.bandpowerFn m.params

/-- Python exceptions surfaced by this module. -/
inductive Err where
  | assertionError
  | valueError (msg : String)
  | keyError (k : String)
  | indexError
  | attributeError
deriving DecidableEq

def exceptOk {α : Type} : Except Err α → Bool
  | .ok _ => true
  | .error _ => false

instance {ε α : Type} [DecidableEq ε] [DecidableEq α] :
    DecidableEq (Except ε α) := fun a b =>
  match a, b with
  | .ok x, .ok y =>
    match decEq x y with
    | isTrue h => isTrue (by rw [h])
    | isFalse h => isFalse (by intro hc; cases hc; exact h rfl)
  | .ok _, .error _ => isFalse (by intro hc; cases hc)
  | .error _, .ok _ => isFalse (by intro hc; cases hc)
  | .error x, .error y =>
    match decEq x y with
    | isTrue h => isTrue (by rw [h])
    | isFalse h => isFalse (by intro hc; cases hc; exact h rfl)

/-- The opaque helper functions from `afra.tools.aux` and numpy:
`umap` (unit↔physical range mapper), `gvec`/`hvec` (residual vectorizers),
and `np.linalg.lstsq` (covariance solve). -/
structure Helpers where
  umap : ℚ → ℚ × ℚ → ℚ
  gvec : NDArray → List RV
  hvec : NDArray → NDArray → NDArray → List RV
  lstsq : NDArray → List RV → List RV

/-- Attribute state of a `fit` object (`_data`, ..., `_offset` for hlfit). -/
structure FitState where
  data : NDArray
  fiducial : NDArray
  noise : NDArray
  covariance : NDArray
  offset : NDArray
  params : SDict ℚ
  paramrange : SDict (ℚ × ℚ)
  activelist : List String
  background : Option Model
  foreground : Option Model
  solver : String

/-- gaussfit residual: `gvec(predicted + noise - data)`. -/
def gdiff (H : Helpers) (st : FitState) (predicted : NDArray) : List RV :=
  H.gvec ((predicted.add st.noise).sub st.data)

/-- hlfit residual:
`hvec(predicted+noise+offset, data+offset, fiducial+noise+offset)`. -/
def hdiff (H : Helpers) (st : FitState) (predicted : NDArray) : List RV :=
  H.hvec ((predicted.add st.noise).add st.offset) (st.data.add st.offset)
    ((st.fiducial.add st.noise).add st.offset)

/-- `np.vdot(diff, np.linalg.lstsq(covariance, diff)[0])`. -/
def covSolveDot (H : Helpers) (st : FitState) (diff : List RV) : RV :=
  vdot diff (H.lstsq st.covariance diff)

/-- `gaussfit.loglikeli` -/
def gaussLoglikeli (H : Helpers) (st : FitState) (predicted : NDArray) :
    Except Err ℚ :=
  if predicted.shape ≠ st.data.shape then .error .assertionError else
  let diff := gdiff H st predicted
  if listHasNaN diff then .error (.valueError "encounter nan") else
  match RV.mul (some (-(1/2))) (covSolveDot H st diff) with
  | none => .ok (-FLOATMAX)
  | some x => .ok x

/-- `gaussfit.lsq` -/
def gaussLsq (H : Helpers) (st : FitState) (predicted : NDArray) :
    Except Err ℚ :=
  if predicted.shape ≠ st.data.shape then .error .assertionError else
  let diff := gdiff H st predicted
  if listHasNaN diff then .error (.valueError "encounter nan") else
  match covSolveDot H st diff with
  | none => .ok FLOATMAX
  | some x => .ok x

/-- `hlfit.loglikeli` -/
def hlLoglikeli (H : Helpers) (st : FitState) (predicted : NDArray) :
    Except Err ℚ :=
  if predicted.shape ≠ st.data.shape then .error .assertionError else
  let diff := hdiff H st predicted
  if listHasNaN diff then .error (.valueError "encounter nan") else
  match RV.mul (some (-(1/2))) (covSolveDot H st diff) with
  | none => .ok (-FLOATMAX)
  | some x => .ok x

/-- `hlfit.lsq` -/
def hlLsq (H : Helpers) (st : FitState) (predicted : NDArray) :
    Except Err ℚ :=
  if predicted.shape ≠ st.data.shape then .error .assertionError else
  let diff := hdiff H st predicted
  if listHasNaN diff then .error (.valueError "encounter nan") else
  match covSolveDot H st diff with
  | none => .ok FLOATMAX
  | some x => .ok x

/-- The `loglikeli`/`lsq` pair a concrete fit variant supplies. -/
structure StatPair where
  loglikeli : FitState → NDArray → Except Err ℚ
  lsq : FitState → NDArray → Except Err ℚ

def gaussStat (H : Helpers) : StatPair := ⟨gaussLoglikeli H, gaussLsq H⟩

def hlStat (H : Helpers) : StatPair := ⟨hlLoglikeli H, hlLsq H⟩

/-- Observable side effects on the attached models. -/
inductive Ev where
  | resetFg (δ : SDict ℚ)
  | resetBg (δ : SDict ℚ)
  | bandpowerFg
  | bandpowerBg
deriving DecidableEq

/-- `np.any(cube > 1.) or np.any(cube < 0.)` -/
def cubeOut (cube : List ℚ) : Bool :=
  cube.any (fun x => decide ((1 : ℚ) < x)) || cube.any (fun x => decide (x < (0 : ℚ)))

/-- The parameter-pushing loop shared by `_core_likelihood` and `_core_lsq`:
for the i-th sorted active name, `tmp = umap(cube[i], paramrange[name])`,
then `reset({name: tmp})` on each attached model. A missing range raises
KeyError, an exhausted cube IndexError. -/
def applyParams (H : Helpers) (pr : SDict (ℚ × ℚ)) :
    List String → List ℚ → Option Model → Option Model →
    Except Err (Option Model × Option Model × List Ev)
  | [], _, fg, bg => .ok (fg, bg, [])
  | _ :: _, [], _, _ => .error .indexError
  | n :: ns, c :: cs, fg, bg =>
    match dictLookup pr n with
    | none => .error (.keyError n)
    | some rg =>
      let tmp := H.umap c rg
      let fg' := fg.map (fun m => m.reset [(n, tmp)])
      let bg' := bg.map (fun m => m.reset [(n, tmp)])
      let evs := (if fg.isSome then [Ev.resetFg [(n, tmp)]] else [])
        ++ (if bg.isSome then [Ev.resetBg [(n, tmp)]] else [])
      match applyParams H pr ns cs fg' bg' with
      | .error e => .error e
      | .ok (f, b, t) => .ok (f, b, evs ++ t)

/-- The prediction branch of the cores: background alone when foreground is
absent, foreground alone when background is absent, their sum otherwise;
both absent dereferences None (AttributeError). -/
def predictionOf : Option Model → Option Model →
    Except Err (NDArray × List Ev)
  | none, none => .error .attributeError
  | none, some b => .ok (b.bandpower, [Ev.bandpowerBg])
  | some f, none => .ok (f.bandpower, [Ev.bandpowerFg])
  | some f, some b => .ok (f.bandpower.add b.bandpower, [Ev.bandpowerFg, Ev.bandpowerBg])

/-- `fit._core_likelihood`: result, updated model state, event trace. -/
def coreLikelihood (H : Helpers) (S : StatPair) (st : FitState) (cube : List ℚ) :
    Except Err ℚ × FitState × List Ev :=
  if cubeOut cube then (.ok (-FLOATMAX), st, []) else
  match applyParams H st.paramrange (sortStrings st.activelist) cube
      st.foreground st.background with
  | .error e => (.error e, st, [])
  | .ok (fg', bg', tr) =>
    let st' := { st with foreground := fg', background := bg' }
    match predictionOf fg' bg' with
    | .error e => (.error e, st', tr)
    | .ok (p, evs) => (S.loglikeli st' p, st', tr ++ evs)

/-- `fit._core_lsq`: identical control flow, lsq statistic and `+` sentinel. -/
def coreLsq (H : Helpers) (S : StatPair) (st : FitState) (cube : List ℚ) :
    Except Err ℚ × FitState × List Ev :=
  if cubeOut cube then (.ok FLOATMAX, st, []) else
  match applyParams H st.paramrange (sortStrings st.activelist) cube
      st.foreground st.background with
  | .error e => (.error e, st, [])
  | .ok (fg', bg', tr) =>
    let st' := { st with foreground := fg', background := bg' }
    match predictionOf fg' bg' with
    | .error e => (.error e, st', tr)
    | .ok (p, evs) => (S.lsq st' p, st', tr ++ evs)

/-- `_core_likelihood` as the plain objective handed to sampling engines. -/
def coreLikelihoodFn (H : Helpers) (S : StatPair) (st : FitState)
    (cube : List ℚ) : Except Err ℚ :=
  (coreLikelihood H S st cube).1

/-- `_core_lsq` as the plain objective handed to the point optimizer. -/
def coreLsqFn (H : Helpers) (S : StatPair) (st : FitState)
    (cube : List ℚ) : Except Err ℚ :=
  (coreLsq H S st cube).1

/-- `fit.prior`: the flat prior transform. -/
def prior (cube : List ℚ) : List ℚ := cube

/-- Walker positions: nwalker rows of ndim unit-cube coordinates. -/
abbrev Pos := List (List ℚ)

/-- The dynesty `results` object: the samples array plus the fields that are
not touched by `run_dynesty` (evidence estimates, importance weights, an
iteration counter standing for the remaining metadata). -/
structure DynestyResults where
  samples : List (List ℚ)
  logz : List ℚ
  weights : List ℚ
  niter : ℕ
deriving DecidableEq

/-- The black-box engines: emcee's initial uniform draw, chain advance and
autocorrelation estimate; dynesty's nested run as a function of the supplied
log-likelihood and prior transform; iminuit's migrad/minos outputs as a
function of the objective, start point and names. -/
structure Engines where
  emceeInit : ℕ → ℕ → Pos
  emceeAdvance : (List ℚ → Except Err ℚ) → Pos → ℕ → List Pos
  emceeAutocorr : List Pos → List ℚ
  dynestyRun : (List ℚ → Except Err ℚ) → (List ℚ → List ℚ) → SDict ℕ →
    DynestyResults
  minuitMigrad : (List ℚ → Except Err ℚ) → List ℚ → List String → List ℚ
  minuitMinos : (List ℚ → Except Err ℚ) → List ℚ → List String → List ℚ

/-- `np.mean` of a rational list. -/
def ratMean (l : List ℚ) : ℚ := l.sum / (l.length : ℚ)

/-- Ranges of the given names, in order; KeyError when one is missing. -/
def getRanges (pr : SDict (ℚ × ℚ)) : List String → Except Err (List (ℚ × ℚ))
  | [] => .ok []
  | n :: ns =>
    match dictLookup pr n with
    | none => .error (.keyError n)
    | some r => (getRanges pr ns).map (fun rs => r :: rs)

/-- The per-column physical remapping loop
`row[i] = umap(row[i], [low, high])` for i below the name count. -/
def applyRowMap (H : Helpers) : List (ℚ × ℚ) → List ℚ → List ℚ
  | [], r => r
  | _, [] => []
  | rg :: rs, x :: xs => H.umap x rg :: applyRowMap H rs xs

/-- `fit.run_minuit` -/
def run_minuit (E : Engines) (H : Helpers) (S : StatPair) (st : FitState)
    (_kwargs : SDict ℕ := []) : Except Err (List ℚ × List ℚ) :=
  let names := sortStrings st.activelist
  let best := E.minuitMigrad (coreLsqFn H S st)
    (List.replicate names.length (1/2 : ℚ)) names
  let err := E.minuitMinos (coreLsqFn H S st) best names
  match getRanges st.paramrange names with
  | .error e => .error e
  | .ok rgs => .ok (applyRowMap H rgs best, applyRowMap H rgs err)

/-- The literal Python default argument of `run_emcee`. -/
def emceeDefaults : SDict ℕ := [("nwalker", 100), ("nstep", 10000)]

/-- `fit.run_emcee`: burn-in of `nstep//10` from the uniform initial draw,
reset keeping the final walker positions, full `nstep` run, autocorrelation
estimate `tau`, conditional `100*tau` re-run when `nstep < 50*tau`, then the
chain with the first `10*tau` steps discarded, flattened across walkers and
mapped to physical units per sorted parameter name. -/
def run_emcee (E : Engines) (H : Helpers) (S : StatPair) (st : FitState)
    (kwargs : SDict ℕ := emceeDefaults) : Except Err (List (List ℚ)) :=
  match dictLookup kwargs "nwalker" with
  | none => .error (.keyError "nwalker")
  | some nwalker =>
    match dictLookup kwargs "nstep" with
    | none => .error (.keyError "nstep")
    | some nstep =>
      let obj := coreLikelihoodFn H S st
      let start := E.emceeInit nwalker st.activelist.length
      let burn := E.emceeAdvance obj start (nstep / 10)
      let state1 := burn.getLastD start
      let chain := E.emceeAdvance obj state1 nstep
      let state2 := chain.getLastD state1
      let tau : ℤ := ⌊ratMean (E.emceeAutocorr chain)⌋
      let chainF := if (nstep : ℤ) < 50 * tau then
          E.emceeAdvance obj state2 (100 * tau).toNat
        else chain
      let results := (chainF.drop (10 * tau).toNat).flatten
      match getRanges st.paramrange (sortStrings st.activelist) with
      | .error e => .error e
      | .ok rgs => .ok (results.map (applyRowMap H rgs))

/-- `fit.run_dynesty`: nested run on `(_core_likelihood, prior)`, then the
samples array of the result is remapped per-column in place. -/
def run_dynesty (E : Engines) (H : Helpers) (S : StatPair) (st : FitState)
    (kwargs : SDict ℕ := []) : Except Err DynestyResults :=
  let raw := E.dynestyRun (coreLikelihoodFn H S st) prior kwargs
  match getRanges st.paramrange (sortStrings st.activelist) with
  | .error e => .error e
  | .ok rgs => .ok { raw with samples := raw.samples.map (applyRowMap H rgs) }

/-- `self._activelist = set(self._params.keys())` minus each attached
model's blacklist, as recomputed at the top of `run`. -/
def computeActive (st : FitState) : List String :=
  let a0 := (dictKeys st.params).dedup
  let a1 := match st.background with
    | some bg => a0.filter (fun n => !(bg.blacklist.contains n))
    | none => a0
  match st.foreground with
  | some fg => a1.filter (fun n => !(fg.blacklist.contains n))
  | none => a1

/-- The three result shapes `run` can hand back. -/
inductive RunResult where
  | minuitR (best err : List ℚ)
  | emceeR (samples : List (List ℚ))
  | dynestyR (res : DynestyResults)
deriving DecidableEq

/-- `fit.run`: recompute the active set, then dispatch on the solver name.
Returns the solver result together with the updated orchestrator state. -/
def run (E : Engines) (H : Helpers) (S : StatPair) (st : FitState)
    (kwargs : SDict ℕ) : Except Err RunResult × FitState :=
  let st' := { st with activelist := computeActive st }
  (match st'.solver with
   | "minuit" => (run_minuit E H S st' kwargs).map (fun p => .minuitR p.1 p.2)
   | "emcee" => (run_emcee E H S st' kwargs).map .emceeR
   | "dynesty" => (run_dynesty E H S st' kwargs).map .dynestyR
   | s => .error (.keyError s), st')

/-- The data/fiducial/noise setters: 4-dimensional, NaN-free, copied. -/
def checkTensor4 (a : NDArray) : Except Err NDArray :=
  if a.ndim ≠ 4 then .error .assertionError
  else if a.hasNaN then .error (.valueError "encounter nan")
  else .ok a

/-- The covariance setter: 2-dimensional, square, NaN-free, copied. -/
def checkCovariance (a : NDArray) : Except Err NDArray :=
  if a.ndim ≠ 2 then .error .assertionError
  else if a.shape.getD 0 0 ≠ a.shape.getD 1 0 then .error .assertionError
  else if a.hasNaN then .error (.valueError "encounter nan")
  else .ok a

/-- The foreground setter: attach and merge params/paramrange (None detaches
without unmerging). -/
def setForeground (st : FitState) (m : Option Model) : FitState :=
  match m with
  | none => { st with foreground := none }
  | some mm => { st with
      foreground := some mm
      params := dictUpdate st.params mm.params
      paramrange := dictUpdate st.paramrange mm.paramrange }

/-- The background setter, same merging discipline. -/
def setBackground (st : FitState) (m : Option Model) : FitState :=
  match m with
  | none => { st with background := none }
  | some mm => { st with
      background := some mm
      params := dictUpdate st.params mm.params
      paramrange := dictUpdate st.paramrange mm.paramrange }

/-- The solver setter: name must be one of minuit/dynesty/emcee. -/
def setSolver (s : String) : Except Err String :=
  if s = "minuit" ∨ s = "dynesty" ∨ s = "emcee" then .ok s
  else .error .assertionError

/-- `fit.__init__`: tensor setters, empty params/paramrange/activelist,
background then foreground merge, the no-model check, the solver check. -/
def fitInit (data fiducial noise covariance : NDArray)
    (background foreground : Option Model) (solver : String) :
    Except Err FitState :=
  match checkTensor4 data with
  | .error e => .error e
  | .ok d =>
  match checkTensor4 fiducial with
  | .error e => .error e
  | .ok f =>
  match checkTensor4 noise with
  | .error e => .error e
  | .ok n =>
  match checkCovariance covariance with
  | .error e => .error e
  | .ok c =>
  let base : FitState :=
    { data := d, fiducial := f, noise := n, covariance := c,
      offset := zerosLike n, params := [], paramrange := [],
      activelist := [], background := none, foreground := none, solver := "" }
  let withModels := setForeground (setBackground base background) foreground
  if withModels.foreground.isNone && withModels.background.isNone then
    .error (.valueError "no activated model")
  else
    match setSolver solver with
    | .error e => .error e
    | .ok s => .ok { withModels with solver := s }

/-- `gaussfit.__init__` simply delegates to `fit.__init__`. -/
def gaussfitInit (data fiducial noise covariance : NDArray)
    (background foreground : Option Model) (solver : String) :
    Except Err FitState :=
  fitInit data fiducial noise covariance background foreground solver

/-- The hlfit offset setter: zero tensor shaped like noise when absent,
otherwise shape-checked against noise, NaN-checked, copied. -/
def setOffset (st : FitState) (offset : Option NDArray) : Except Err FitState :=
  match offset with
  | none => .ok { st with offset := zerosLike st.noise }
  | some o =>
    if o.shape ≠ st.noise.shape then .error .assertionError
    else if o.hasNaN then .error (.valueError "encounter nan")
    else .ok { st with offset := o }

/-- `hlfit.__init__`: `fit.__init__` followed by the offset setter. -/
def hlfitInit (data fiducial noise covariance : NDArray)
    (background foreground : Option Model) (solver : String)
    (offset : Option NDArray) : Except Err FitState :=
  match fitInit data fiducial noise covariance background foreground solver with
  | .error e => .error e
  | .ok st => setOffset st offset

/-! Concrete instances used to evaluate the development on closed inputs. -/

/-- A concrete helper pack: linear `umap`, flattening `gvec`/`hvec`,
identity solve. -/
def H0 : Helpers :=
  { umap := fun u rg => rg.1 + u * (rg.2 - rg.1)
    gvec := fun a => a.entries
    hvec := fun a _ _ => a.entries
    lstsq := fun _ v => v }

/-- A 1×1×1×1 band-power tensor with single entry `q`. -/
def bp1 (q : ℚ) : NDArray := ⟨[1, 1, 1, 1], [some q]⟩

/-- A concrete background model exposing the parameter `b`. -/
def m0 : Model :=
  { params := [("b", 1)], paramrange := [("b", (0, 2))], blacklist := []
    bandpowerFn := fun ps => bp1 ((dictLookup ps "b").getD 0) }

/-- A concrete foreground model exposing the parameter `f`. -/
def mF : Model :=
  { params := [("f", 2)], paramrange := [("f", (0, 4))], blacklist := ["f"]
    bandpowerFn := fun ps => bp1 ((dictLookup ps "f").getD 0) }

/-- A concrete 1×1 covariance. -/
def cov0 : NDArray := ⟨[1, 1], [some 1]⟩

/-- A concrete orchestrator state with the background model attached. -/
def st0 : FitState :=
  { data := bp1 1, fiducial := bp1 0, noise := bp1 0, covariance := cov0
    offset := bp1 0, params := [("b", 1)], paramrange := [("b", (0, 2))]
    activelist := ["b"], background := some m0, foreground := none
    solver := "emcee" }

/-- A trivially deterministic engine pack. -/
def E0 : Engines :=
  { emceeInit := fun nw nd => List.replicate nw (List.replicate nd (1/2))
    emceeAdvance := fun _ p n => List.replicate n p
    emceeAutocorr := fun _ => [1]
    dynestyRun := fun _ _ _ =>
      { samples := [[1/2]], logz := [3], weights := [1], niter := 7 }
    minuitMigrad := fun _ start _ => start
    minuitMinos := fun _ _ names => List.replicate names.length (1/10) }

/-- A helper pack whose covariance solve degenerates to NaN. -/
def H1 : Helpers := { H0 with lstsq := fun _ v => v.map (fun _ => none) }

/-- A concrete state with both models attached (`mF` blacklists `f`). -/
def stBL : FitState := { st0 with
  foreground := some mF
  params := [("b", 1), ("f", 2)]
  paramrange := [("b", (0, 2)), ("f", (0, 4))] }

/-- An engine pack whose chains stay put, cheap to evaluate. -/
def E1 : Engines := { E0 with
  emceeAdvance := fun _ p _ => [p]
  emceeAutocorr := fun _ => [0] }

/-! Helper lemmas. -/

theorem cubeOut_of_out {cube : List ℚ} (h : ∃ x ∈ cube, 1 < x ∨ x < 0) :
    cubeOut cube = true := by
  obtain ⟨x, hx, h1 | h0⟩ := h <;>
    simp only [cubeOut, Bool.or_eq_true, List.any_eq_true, decide_eq_true_eq]
  · exact Or.inl ⟨x, hx, h1⟩
  · exact Or.inr ⟨x, hx, h0⟩

theorem cubeOut_of_in {cube : List ℚ} (h : ∀ x ∈ cube, 0 ≤ x ∧ x ≤ 1) :
    cubeOut cube = false := by
  simp only [cubeOut, Bool.or_eq_false_iff, List.any_eq_false, decide_eq_true_eq]
  exact ⟨fun x hx => not_lt.2 (h x hx).2, fun x hx => not_lt.2 (h x hx).1⟩

/-! Claim theorems. -/

/-- C2: for every cube point with a coordinate above 1 or below 0, the
likelihood core returns the finite `nan_to_num(-inf)` sentinel and the lsq
core the finite `nan_to_num(+inf)` sentinel, with the fit state unchanged
and an empty event trace (no `reset`, no `bandpower`), and this holds for an
arbitrary statistic pair, so the statistic is never evaluated. -/
theorem c2_cube_sentinels (H : Helpers) (S : StatPair) (st : FitState)
    (cube : List ℚ) (h : ∃ x ∈ cube, 1 < x ∨ x < 0) :
    coreLikelihood H S st cube = (.ok (-FLOATMAX), st, [])
    ∧ coreLsq H S st cube = (.ok FLOATMAX, st, []) := by
  have hc := cubeOut_of_out h
  exact ⟨by simp [coreLikelihood, hc], by simp [coreLsq, hc]⟩

theorem c2_witness :
    coreLikelihood H0 (gaussStat H0) st0 [3/2] = (.ok (-FLOATMAX), st0, [])
    ∧ coreLsq H0 (gaussStat H0) st0 [3/2] = (.ok FLOATMAX, st0, []) :=
  c2_cube_sentinels H0 (gaussStat H0) st0 [3/2]
    (by with_unfolding_all decide)

/-- C3: for both variants, whenever the shapes agree, the residual is
NaN-free and the covariance-weighted statistic is not NaN (so neither form
hits its clamp), `loglikeli = -0.5 * lsq`; both sides are built from the one
residual (`gdiff` resp. `hdiff`) and the one reduction `covSolveDot`. -/
theorem c3_loglikeli_neg_half_lsq (H : Helpers) (st : FitState) (p : NDArray) :
    (∀ c : ℚ, p.shape = st.data.shape → listHasNaN (gdiff H st p) = false →
      covSolveDot H st (gdiff H st p) = some c →
      gaussLsq H st p = .ok c ∧ gaussLoglikeli H st p = .ok (-(1/2) * c))
    ∧ (∀ c : ℚ, p.shape = st.data.shape → listHasNaN (hdiff H st p) = false →
      covSolveDot H st (hdiff H st p) = some c →
      hlLsq H st p = .ok c ∧ hlLoglikeli H st p = .ok (-(1/2) * c)) := by
  constructor <;> intro c hsh hnn hc <;> constructor <;>
    simp [gaussLsq, gaussLoglikeli, hlLsq, hlLoglikeli, hsh, hnn, hc, RV.mul]

theorem c3_witness :
    (gaussLsq H0 st0 (bp1 1) = .ok 0
      ∧ gaussLoglikeli H0 st0 (bp1 1) = .ok (-(1/2) * 0))
    ∧ (hlLsq H0 st0 (bp1 1) = .ok 1
      ∧ hlLoglikeli H0 st0 (bp1 1) = .ok (-(1/2) * 1)) :=
  ⟨(c3_loglikeli_neg_half_lsq H0 st0 (bp1 1)).1 0 rfl
      (by with_unfolding_all decide) (by with_unfolding_all decide),
   (c3_loglikeli_neg_half_lsq H0 st0 (bp1 1)).2 1 rfl
      (by with_unfolding_all decide) (by with_unfolding_all decide)⟩

/-- C4: both variants fail with the shape assertion when the predicted shape
differs from the data shape; raise the hard `encounter nan` error when the
residual contains NaN; and when the residual is clean but the
covariance-weighted statistic is NaN, clamp to the finite `-inf` equivalent
(loglikeli) resp. `+inf` equivalent (lsq) instead of propagating NaN. -/
theorem c4_statistic_error_discipline (H : Helpers) (st : FitState)
    (p : NDArray) :
    (p.shape ≠ st.data.shape →
      gaussLoglikeli H st p = .error .assertionError
      ∧ gaussLsq H st p = .error .assertionError
      ∧ hlLoglikeli H st p = .error .assertionError
      ∧ hlLsq H st p = .error .assertionError)
    ∧ (p.shape = st.data.shape → listHasNaN (gdiff H st p) = true →
      gaussLoglikeli H st p = .error (.valueError "encounter nan")
      ∧ gaussLsq H st p = .error (.valueError "encounter nan"))
    ∧ (p.shape = st.data.shape → listHasNaN (hdiff H st p) = true →
      hlLoglikeli H st p = .error (.valueError "encounter nan")
      ∧ hlLsq H st p = .error (.valueError "encounter nan"))
    ∧ (p.shape = st.data.shape → listHasNaN (gdiff H st p) = false →
      covSolveDot H st (gdiff H st p) = none →
      gaussLoglikeli H st p = .ok (-FLOATMAX) ∧ gaussLsq H st p = .ok FLOATMAX)
    ∧ (p.shape = st.data.shape → listHasNaN (hdiff H st p) = false →
      covSolveDot H st (hdiff H st p) = none →
      hlLoglikeli H st p = .ok (-FLOATMAX) ∧ hlLsq H st p = .ok FLOATMAX) := by
  refine ⟨fun hsh => ?_, fun hsh hnn => ?_, fun hsh hnn => ?_,
    fun hsh hnn hc => ?_, fun hsh hnn hc => ?_⟩
  · exact ⟨by simp [gaussLoglikeli, hsh], by simp [gaussLsq, hsh],
      by simp [hlLoglikeli, hsh], by simp [hlLsq, hsh]⟩
  · exact ⟨by simp [gaussLoglikeli, hsh, hnn], by simp [gaussLsq, hsh, hnn]⟩
  · exact ⟨by simp [hlLoglikeli, hsh, hnn], by simp [hlLsq, hsh, hnn]⟩
  · exact ⟨by simp [gaussLoglikeli, hsh, hnn, hc, RV.mul],
      by simp [gaussLsq, hsh, hnn, hc, RV.mul]⟩
  · exact ⟨by simp [hlLoglikeli, hsh, hnn, hc, RV.mul],
      by simp [hlLsq, hsh, hnn, hc, RV.mul]⟩

/-- A NaN-bearing predicted tensor shaped like the data. -/
def pNaN : NDArray := ⟨[1, 1, 1, 1], [none]⟩

theorem c4_witness :
    (gaussLoglikeli H0 st0 cov0 = .error .assertionError
      ∧ gaussLsq H0 st0 cov0 = .error .assertionError
      ∧ hlLoglikeli H0 st0 cov0 = .error .assertionError
      ∧ hlLsq H0 st0 cov0 = .error .assertionError)
    ∧ (gaussLoglikeli H0 st0 pNaN = .error (.valueError "encounter nan")
      ∧ gaussLsq H0 st0 pNaN = .error (.valueError "encounter nan"))
    ∧ (gaussLoglikeli H1 st0 (bp1 1) = .ok (-FLOATMAX)
      ∧ gaussLsq H1 st0 (bp1 1) = .ok FLOATMAX) :=
  ⟨(c4_statistic_error_discipline H0 st0 cov0).1 (by with_unfolding_all decide),
   (c4_statistic_error_discipline H0 st0 pNaN).2.1 rfl
      (by with_unfolding_all decide),
   (c4_statistic_error_discipline H1 st0 (bp1 1)).2.2.2.1 rfl
      (by with_unfolding_all decide) (by with_unfolding_all decide)⟩

/-- C9: constructing with both models absent fails with the
`no activated model` configuration error (for the base constructor and the
hlfit variant alike), and this is the only model-count requirement at
construction: with per-tensor-valid inputs, attaching only a background,
only a foreground, or both always succeeds. -/
theorem c9_model_requirement (d f n c : NDArray) (bg fg : Model) (s : String)
    (hd4 : d.ndim = 4) (hdn : d.hasNaN = false)
    (hf4 : f.ndim = 4) (hfn : f.hasNaN = false)
    (hn4 : n.ndim = 4) (hnn : n.hasNaN = false)
    (hc2 : c.ndim = 2) (hcs : c.shape.getD 0 0 = c.shape.getD 1 0)
    (hcn : c.hasNaN = false)
    (hs : s = "minuit" ∨ s = "dynesty" ∨ s = "emcee") :
    fitInit d f n c none none s = .error (.valueError "no activated model")
    ∧ exceptOk (fitInit d f n c (some bg) none s) = true
    ∧ exceptOk (fitInit d f n c none (some fg) s) = true
    ∧ exceptOk (fitInit d f n c (some bg) (some fg) s) = true
    ∧ hlfitInit d f n c none none s none = .error (.valueError "no activated model")
    ∧ exceptOk (hlfitInit d f n c (some bg) none s none) = true := by
  have hd : checkTensor4 d = .ok d := by simp [checkTensor4, hd4, hdn]
  have hf : checkTensor4 f = .ok f := by simp [checkTensor4, hf4, hfn]
  have hn : checkTensor4 n = .ok n := by simp [checkTensor4, hn4, hnn]
  have hcs2 : c.shape[0]?.getD 0 = c.shape[1]?.getD 0 := by simpa using hcs
  have hc : checkCovariance c = .ok c := by
    simp [checkCovariance, hc2, hcs2, hcn]
  have hsv : setSolver s = .ok s := by
    rcases hs with h | h | h <;> simp [setSolver, h]
  refine ⟨?_, ?_, ?_, ?_, ?_, ?_⟩ <;>
    simp [fitInit, hlfitInit, hd, hf, hn, hc, hsv, setForeground,
      setBackground, setOffset, exceptOk]

theorem c9_witness :
    fitInit (bp1 1) (bp1 0) (bp1 0) cov0 none none "dynesty"
      = .error (.valueError "no activated model")
    ∧ exceptOk (fitInit (bp1 1) (bp1 0) (bp1 0) cov0 (some m0) none "dynesty") = true
    ∧ exceptOk (fitInit (bp1 1) (bp1 0) (bp1 0) cov0 none (some mF) "dynesty") = true
    ∧ exceptOk (fitInit (bp1 1) (bp1 0) (bp1 0) cov0 (some m0) (some mF) "dynesty") = true
    ∧ hlfitInit (bp1 1) (bp1 0) (bp1 0) cov0 none none "dynesty" none
      = .error (.valueError "no activated model")
    ∧ exceptOk (hlfitInit (bp1 1) (bp1 0) (bp1 0) cov0 (some m0) none "dynesty" none) = true :=
  c9_model_requirement (bp1 1) (bp1 0) (bp1 0) cov0 m0 mF "dynesty"
    rfl rfl rfl rfl rfl rfl rfl rfl rfl (Or.inr (Or.inl rfl))

/-- A fiducial tensor of a different 4-d shape than `bp1`'s `[1,1,1,1]`. -/
def fidMM : NDArray := ⟨[1, 1, 1, 2], [some 0, some 0]⟩

/-- C8, counterexample: construction with a fiducial tensor shaped
differently from the data tensor succeeds — cross-tensor shape
inconsistency is not rejected at construction/assignment time. -/
theorem c8_counterexample :
    exceptOk (fitInit (bp1 1) fidMM (bp1 0) cov0 (some m0) none "dynesty")
      = true := by
  with_unfolding_all decide

/-- C8, amended: construction validates each tensor only individually
(data/fiducial/noise 4-dimensional and NaN-free, covariance square
2-dimensional and NaN-free), so mutually inconsistent shapes across them
are accepted at construction and surface only at evaluation time through
the statistic's predicted-vs-data shape assertion; the single cross-tensor
shape check at assignment time is hlfit's offset against the noise shape. -/
theorem c8_construction_checks_amended (d f n c : NDArray) (bg : Model)
    (s : String)
    (hd4 : d.ndim = 4) (hdn : d.hasNaN = false)
    (hf4 : f.ndim = 4) (hfn : f.hasNaN = false)
    (hn4 : n.ndim = 4) (hnn : n.hasNaN = false)
    (hc2 : c.ndim = 2) (hcs : c.shape.getD 0 0 = c.shape.getD 1 0)
    (hcn : c.hasNaN = false)
    (hs : s = "minuit" ∨ s = "dynesty" ∨ s = "emcee") :
    exceptOk (fitInit d f n c (some bg) none s) = true
    ∧ (∀ o : NDArray, o.shape ≠ n.shape →
        hlfitInit d f n c (some bg) none s (some o) = .error .assertionError)
    ∧ (∀ (H : Helpers) (st : FitState) (p : NDArray),
        p.shape ≠ st.data.shape →
        gaussLoglikeli H st p = .error .assertionError
        ∧ hlLoglikeli H st p = .error .assertionError) := by
  have hd : checkTensor4 d = .ok d := by simp [checkTensor4, hd4, hdn]
  have hf : checkTensor4 f = .ok f := by simp [checkTensor4, hf4, hfn]
  have hn : checkTensor4 n = .ok n := by simp [checkTensor4, hn4, hnn]
  have hcs2 : c.shape[0]?.getD 0 = c.shape[1]?.getD 0 := by simpa using hcs
  have hc : checkCovariance c = .ok c := by
    simp [checkCovariance, hc2, hcs2, hcn]
  have hsv : setSolver s = .ok s := by
    rcases hs with h | h | h <;> simp [setSolver, h]
  refine ⟨?_, fun o ho => ?_, fun H st p hp => ?_⟩
  · simp [fitInit, hd, hf, hn, hc, hsv, setForeground, setBackground, exceptOk]
  · simp [hlfitInit, fitInit, hd, hf, hn, hc, hsv, setForeground,
      setBackground, setOffset, ho]
  · exact ⟨by simp [gaussLoglikeli, hp], by simp [hlLoglikeli, hp]⟩

/-- Follows the claim's words: the physical-unit delta for each sorted
active name, `umap(cube[i], paramrange[name])`, paired with the name. -/
def claimPairs (H : Helpers) (pr : SDict (ℚ × ℚ)) (names : List String)
    (cube : List ℚ) : SDict ℚ :=
  List.zipWith (fun n c => (n, H.umap c ((dictLookup pr n).getD (0, 0))))
    names cube

/-- Follows the claim's words: the one-parameter `reset`s pushed in turn. -/
def resetAll (m : Model) (ps : SDict ℚ) : Model :=
  ps.foldl (fun a p => a.reset [p]) m

/-- The reset events the claim describes: per pair, foreground first when
attached, then background when attached. -/
def resetTrace (fg bg : Option Model) (ps : SDict ℚ) : List Ev :=
  (ps.map (fun p => (if fg.isSome then [Ev.resetFg [p]] else [])
    ++ (if bg.isSome then [Ev.resetBg [p]] else []))).flatten

/-- Follows the claim's words: foreground plus background band-power when
both are attached, otherwise the lone attached model's band-power. -/
def claimPrediction : Option Model → Option Model → NDArray
  | some f, some b => f.bandpower.add b.bandpower
  | some f, none => f.bandpower
  | none, some b => b.bandpower
  | none, none => ⟨[], []⟩

/-- The bandpower events matching `claimPrediction`. -/
def claimBpTrace : Option Model → Option Model → List Ev
  | some _, some _ => [Ev.bandpowerFg, Ev.bandpowerBg]
  | some _, none => [Ev.bandpowerFg]
  | none, some _ => [Ev.bandpowerBg]
  | none, none => []

/-- The fit state after the claim's resets hit the attached models. -/
def stAfter (st : FitState) (ps : SDict ℚ) : FitState :=
  { st with
    foreground := st.foreground.map (fun m => resetAll m ps)
    background := st.background.map (fun m => resetAll m ps) }

/-- Follows the claim's words end to end: reset every attached model along
the sorted names with `umap`-converted values, predict, and return the given
statistic of the prediction, together with the state and trace. -/
def claimCoreOutcome (H : Helpers) (stat : FitState → NDArray → Except Err ℚ)
    (st : FitState) (cube : List ℚ) : Except Err ℚ × FitState × List Ev :=
  let ps := claimPairs H st.paramrange (sortStrings st.activelist) cube
  let st' := stAfter st ps
  (stat st' (claimPrediction st'.foreground st'.background), st',
    resetTrace st.foreground st.background ps
      ++ claimBpTrace st'.foreground st'.background)

theorem applyParams_ok (H : Helpers) (pr : SDict (ℚ × ℚ))
    (names : List String) :
    ∀ (cube : List ℚ) (fg bg : Option Model),
    names.length ≤ cube.length →
    (∀ n ∈ names, (dictLookup pr n).isSome) →
    applyParams H pr names cube fg bg =
      .ok (fg.map (fun m => resetAll m (claimPairs H pr names cube)),
           bg.map (fun m => resetAll m (claimPairs H pr names cube)),
           resetTrace fg bg (claimPairs H pr names cube)) := by
  induction names with
  | nil =>
    intro cube fg bg _ _
    cases fg <;> cases bg <;>
      simp [applyParams, claimPairs, resetTrace, resetAll]
  | cons n ns ih =>
    intro cube fg bg hlen hrg
    match cube with
    | [] => simp at hlen
    | c :: cs =>
      obtain ⟨rg, hrgn⟩ := Option.isSome_iff_exists.1 (hrg n (by simp))
      have hlen' : ns.length ≤ cs.length := by simpa using hlen
      have hrg' : ∀ m ∈ ns, (dictLookup pr m).isSome := fun m hm =>
        hrg m (by simp [hm])
      simp only [applyParams, hrgn]
      rw [ih cs _ _ hlen' hrg']
      cases fg <;> cases bg <;>
        simp [claimPairs, hrgn, resetTrace, resetAll, Option.map_map]

/-- C1: on an in-range cube, both objective cores walk the alphabetically
sorted active names, convert the i-th coordinate to physical units via
`umap` with that name's declared range, call `reset({name: value})` on every
attached model (foreground first), form the prediction as
`foreground.bandpower() + background.bandpower()` when both are attached or
the lone attached model's `bandpower()` otherwise, and return the statistic
(`loglikeli` resp. `lsq`) of that prediction. -/
theorem c1_core_objective_flow (H : Helpers) (S : StatPair) (st : FitState)
    (cube : List ℚ)
    (hin : ∀ x ∈ cube, 0 ≤ x ∧ x ≤ 1)
    (hlen : (sortStrings st.activelist).length ≤ cube.length)
    (hrg : ∀ n ∈ sortStrings st.activelist, (dictLookup st.paramrange n).isSome)
    (hmodel : st.foreground.isSome ∨ st.background.isSome) :
    coreLikelihood H S st cube = claimCoreOutcome H S.loglikeli st cube
    ∧ coreLsq H S st cube = claimCoreOutcome H S.lsq st cube := by
  have hps := applyParams_ok H st.paramrange (sortStrings st.activelist) cube
    st.foreground st.background hlen hrg
  have hco := cubeOut_of_in hin
  constructor <;>
  · simp only [coreLikelihood, coreLsq, hco, Bool.false_eq_true, if_false,
      hps, claimCoreOutcome, stAfter]
    rcases hf : st.foreground with _ | f <;>
      rcases hb : st.background with _ | b <;>
      simp_all [predictionOf, claimPrediction, claimBpTrace]

theorem c1_witness :
    coreLikelihood H0 (gaussStat H0) st0 [1/2] =
      claimCoreOutcome H0 (gaussStat H0).loglikeli st0 [1/2]
    ∧ coreLsq H0 (gaussStat H0) st0 [1/2] =
      claimCoreOutcome H0 (gaussStat H0).lsq st0 [1/2] :=
  c1_core_objective_flow H0 (gaussStat H0) st0 [1/2]
    (by with_unfolding_all decide) (by with_unfolding_all decide)
    (by with_unfolding_all decide) (Or.inr rfl)

theorem mem_dictKeys_dictSet {α : Type} {d : SDict α} {k : String}
    (k' : String) (v : α) (h : k ∈ dictKeys d) :
    k ∈ dictKeys (dictSet d k' v) := by
  rcases List.mem_map.1 h with ⟨p, hp, hk⟩
  unfold dictSet
  split
  · refine List.mem_map.2 ⟨if p.1 == k' then (k', v) else p,
      List.mem_map_of_mem _ hp, ?_⟩
    by_cases hb : p.1 == k'
    · simp only [hb, if_pos]
      exact (eq_of_beq hb).symm.trans hk
    · simp only [hb, Bool.false_eq_true, if_neg, not_false_iff]
      exact hk
  · exact List.mem_map.2 ⟨p, List.mem_append_left _ hp, hk⟩

theorem mem_dictKeys_dictUpdate_left {α : Type} {k : String} :
    ∀ (δ d : SDict α), k ∈ dictKeys d → k ∈ dictKeys (dictUpdate d δ)
  | [], _, h => h
  | p :: ps, d, h =>
    mem_dictKeys_dictUpdate_left ps (dictSet d p.1 p.2)
      (mem_dictKeys_dictSet p.1 p.2 h)

theorem mem_computeActive {st : FitState} {k : String} :
    k ∈ computeActive st ↔ k ∈ dictKeys st.params
      ∧ (∀ m, st.background = some m → k ∉ m.blacklist)
      ∧ (∀ m, st.foreground = some m → k ∉ m.blacklist) := by
  unfold computeActive
  rcases hb : st.background with _ | bg <;> rcases hf : st.foreground with _ | fg
  all_goals simp [List.mem_filter, List.mem_dedup, List.contains]
  all_goals tauto

/-- C10: attaching a model through either setter only dict-merges its
`params`/`paramrange` into the fit's aggregates and removes nothing: every
key contributed by a previously attached model persists after the model is
replaced, and such a key enters the active set recomputed by the next `run`
exactly when no currently attached model blacklists it. -/
theorem c10_merge_only_setters (st : FitState) (m1 m2 : Model) (k : String) :
    (k ∈ dictKeys (setForeground st (some m1)).params →
      k ∈ dictKeys (setForeground (setForeground st (some m1)) (some m2)).params)
    ∧ (k ∈ dictKeys (setForeground st (some m1)).paramrange →
      k ∈ dictKeys (setForeground (setForeground st (some m1)) (some m2)).paramrange)
    ∧ (k ∈ dictKeys (setBackground st (some m1)).params →
      k ∈ dictKeys (setBackground (setBackground st (some m1)) (some m2)).params)
    ∧ (k ∈ dictKeys (setBackground st (some m1)).paramrange →
      k ∈ dictKeys (setBackground (setBackground st (some m1)) (some m2)).paramrange)
    ∧ (k ∈ dictKeys (setForeground st (some m1)).params →
      (k ∈ computeActive (setForeground (setForeground st (some m1)) (some m2)) ↔
        (∀ m, st.background = some m → k ∉ m.blacklist) ∧ k ∉ m2.blacklist)) := by
  refine ⟨fun h => mem_dictKeys_dictUpdate_left _ _ h,
    fun h => mem_dictKeys_dictUpdate_left _ _ h,
    fun h => mem_dictKeys_dictUpdate_left _ _ h,
    fun h => mem_dictKeys_dictUpdate_left _ _ h,
    fun h => ?_⟩
  rw [mem_computeActive]
  simp only [setForeground]
  constructor
  · rintro ⟨-, hbg, hfg⟩
    exact ⟨hbg, hfg m2 rfl⟩
  · rintro ⟨hbg, hfg⟩
    refine ⟨mem_dictKeys_dictUpdate_left _ _ h, hbg, ?_⟩
    rintro m hm
    cases hm
    exact hfg

theorem c10_witness :
    ("b" ∈ dictKeys (setForeground (setForeground st0 (some m0)) (some mF)).params)
    ∧ ("b" ∈ computeActive (setForeground (setForeground st0 (some m0)) (some mF)) ↔
        (∀ m, st0.background = some m → "b" ∉ m.blacklist) ∧ "b" ∉ mF.blacklist) :=
  ⟨(c10_merge_only_setters st0 m0 mF "b").1 (by with_unfolding_all decide),
   (c10_merge_only_setters st0 m0 mF "b").2.2.2.2 (by with_unfolding_all decide)⟩

/-- C7: every `run` invocation recomputes the active-parameter set from
scratch (ignoring whatever `activelist` held before) as the merged parameter
keys minus each attached model's blacklist, so a name blacklisted by any
attached model is never active, and membership is exactly: a merged
parameter key not blacklisted by any attached model. -/
theorem c7_active_recompute (E : Engines) (H : Helpers) (S : StatPair)
    (st : FitState) (kw : SDict ℕ) :
    ((run E H S st kw).2.activelist = computeActive st)
    ∧ (∀ al, (run E H S { st with activelist := al } kw).2.activelist
        = computeActive st)
    ∧ (∀ n m, st.background = some m → n ∈ m.blacklist →
        n ∉ (run E H S st kw).2.activelist)
    ∧ (∀ n m, st.foreground = some m → n ∈ m.blacklist →
        n ∉ (run E H S st kw).2.activelist)
    ∧ (∀ n, n ∈ (run E H S st kw).2.activelist ↔ n ∈ dictKeys st.params
        ∧ (∀ m, st.background = some m → n ∉ m.blacklist)
        ∧ (∀ m, st.foreground = some m → n ∉ m.blacklist)) := by
  have hrun : ∀ al, (run E H S { st with activelist := al } kw).2.activelist
      = computeActive st := fun _ => rfl
  refine ⟨rfl, hrun, fun n m hm hn hmem => ?_, fun n m hm hn hmem => ?_,
    fun n => mem_computeActive⟩
  · rcases (mem_computeActive.1 hmem) with ⟨-, hbg, -⟩
    exact hbg m hm hn
  · rcases (mem_computeActive.1 hmem) with ⟨-, -, hfg⟩
    exact hfg m hm hn

theorem c7_witness :
    ((run E0 H0 (gaussStat H0) stBL []).2.activelist = computeActive stBL)
    ∧ ("f" ∉ (run E0 H0 (gaussStat H0) stBL []).2.activelist) := by
  refine ⟨(c7_active_recompute E0 H0 (gaussStat H0) stBL []).1, ?_⟩
  exact (c7_active_recompute E0 H0 (gaussStat H0) stBL []).2.2.2.1 "f" mF rfl
    (by with_unfolding_all decide)

/-- Follows the amended claim's words: the ensemble-sampler procedure for
explicit walker and step counts — burn-in of `nstep//10` from the engine's
uniform initial draw, reset keeping final positions, full `nstep` run,
autocorrelation time `tau`, reset-and-rerun for `100*tau` steps when
`nstep < 50*tau`, then the chain minus its first `10*tau` steps, flattened
across walkers and mapped to physical units per sorted name. -/
def claimEmceeProcedure (E : Engines) (H : Helpers) (S : StatPair)
    (st : FitState) (nwalker nstep : ℕ) : Except Err (List (List ℚ)) :=
  let obj := coreLikelihoodFn H S st
  let start := E.emceeInit nwalker st.activelist.length
  let afterBurn := (E.emceeAdvance obj start (nstep / 10)).getLastD start
  let chain := E.emceeAdvance obj afterBurn nstep
  let tau : ℤ := ⌊ratMean (E.emceeAutocorr chain)⌋
  let finalChain :=
    if (nstep : ℤ) < 50 * tau then
      E.emceeAdvance obj (chain.getLastD afterBurn) (100 * tau).toNat
    else chain
  match getRanges st.paramrange (sortStrings st.activelist) with
  | .error e => .error e
  | .ok rgs =>
    .ok (((finalChain.drop (10 * tau).toNat).flatten).map (applyRowMap H rgs))

/-- C5, counterexample: through `run` with the emcee solver, an options dict
that leaves the walker and step counts unspecified raises KeyError instead
of falling back to 100 walkers and 10000 steps — while the same engine with
the default counts passed explicitly runs to a successful result. -/
theorem c5_counterexample :
    (run E1 H0 (gaussStat H0) st0 []).1 = .error (.keyError "nwalker")
    ∧ exceptOk (run E1 H0 (gaussStat H0) st0 emceeDefaults).1 = true := by
  constructor
  · rfl
  · with_unfolding_all decide

/-- C5, amended: on the `run` path, the ensemble adapter reads `nwalker`
and `nstep` from the supplied options dict (KeyError when either is
missing); the literal `{'nwalker': 100, 'nstep': 10000}` is only the
default argument of `run_emcee` itself, used when it is invoked directly
without options. Given both counts, the procedure is exactly the claimed
burn-in / reset / full-run / `tau`-correction / discard-flatten-remap
pipeline. -/
theorem c5_emcee_amended (E : Engines) (H : Helpers) (S : StatPair)
    (st : FitState) (kw : SDict ℕ) (nwalker nstep : ℕ)
    (hs : st.solver = "emcee")
    (hw : dictLookup kw "nwalker" = some nwalker)
    (hn : dictLookup kw "nstep" = some nstep) :
    (run E H S st kw).1 =
      (claimEmceeProcedure E H S { st with activelist := computeActive st }
        nwalker nstep).map RunResult.emceeR
    ∧ (∀ kw2, dictLookup kw2 "nwalker" = none →
        (run E H S st kw2).1 = .error (.keyError "nwalker"))
    ∧ run_emcee E H S st = run_emcee E H S st emceeDefaults := by
  refine ⟨?_, fun kw2 h2 => ?_, rfl⟩
  · simp only [run, hs, run_emcee, hw, hn, claimEmceeProcedure]
  · simp only [run, hs, run_emcee, h2, Except.map]

theorem c5_witness :
    ((run E1 H0 (gaussStat H0) st0 [("nwalker", 4), ("nstep", 6)]).1 =
      (claimEmceeProcedure E1 H0 (gaussStat H0)
        { st0 with activelist := computeActive st0 } 4 6).map RunResult.emceeR)
    ∧ (∀ kw2, dictLookup kw2 "nwalker" = none →
        (run E1 H0 (gaussStat H0) st0 kw2).1 = .error (.keyError "nwalker"))
    ∧ run_emcee E1 H0 (gaussStat H0) st0
        = run_emcee E1 H0 (gaussStat H0) st0 emceeDefaults :=
  c5_emcee_amended E1 H0 (gaussStat H0) st0 [("nwalker", 4), ("nstep", 6)] 4 6
    rfl (by with_unfolding_all decide) (by with_unfolding_all decide)

/-- C6: `run_dynesty` hands the likelihood entry point together with the
identity prior transform to the nested sampler and, of the returned result
object, rewrites only the samples array — each column remapped to physical
units per sorted parameter name — while evidence, weights and the remaining
fields pass through unmodified; `prior` is the identity on every cube. -/
theorem c6_dynesty_frame (E : Engines) (H : Helpers) (S : StatPair)
    (st : FitState) (kw : SDict ℕ) (rgs : List (ℚ × ℚ))
    (hrg : getRanges st.paramrange (sortStrings st.activelist) = .ok rgs) :
    run_dynesty E H S st kw =
      .ok { E.dynestyRun (coreLikelihoodFn H S st) prior kw with
            samples := (E.dynestyRun (coreLikelihoodFn H S st) prior
              kw).samples.map (applyRowMap H rgs) }
    ∧ (∀ r, run_dynesty E H S st kw = .ok r →
        r.logz = (E.dynestyRun (coreLikelihoodFn H S st) prior kw).logz
        ∧ r.weights = (E.dynestyRun (coreLikelihoodFn H S st) prior kw).weights
        ∧ r.niter = (E.dynestyRun (coreLikelihoodFn H S st) prior kw).niter)
    ∧ (∀ c, prior c = c) := by
  have h1 : run_dynesty E H S st kw =
      .ok { E.dynestyRun (coreLikelihoodFn H S st) prior kw with
            samples := (E.dynestyRun (coreLikelihoodFn H S st) prior
              kw).samples.map (applyRowMap H rgs) } := by
    simp [run_dynesty, hrg]
  refine ⟨h1, fun r hr => ?_, fun c => rfl⟩
  rw [h1] at hr
  injection hr with h
  rw [← h]
  exact ⟨rfl, rfl, rfl⟩

theorem c6_witness :
    run_dynesty E0 H0 (gaussStat H0) st0 [] =
      .ok { E0.dynestyRun (coreLikelihoodFn H0 (gaussStat H0) st0) prior [] with
            samples := (E0.dynestyRun (coreLikelihoodFn H0 (gaussStat H0) st0)
              prior []).samples.map (applyRowMap H0 [(0, 2)]) }
    ∧ (∀ r, run_dynesty E0 H0 (gaussStat H0) st0 [] = .ok r →
        r.logz = (E0.dynestyRun (coreLikelihoodFn H0 (gaussStat H0) st0) prior []).logz
        ∧ r.weights = (E0.dynestyRun (coreLikelihoodFn H0 (gaussStat H0) st0) prior []).weights
        ∧ r.niter = (E0.dynestyRun (coreLikelihoodFn H0 (gaussStat H0) st0) prior []).niter)
    ∧ (∀ c, prior c = c) :=
  c6_dynesty_frame E0 H0 (gaussStat H0) st0 [] [(0, 2)]
    (by with_unfolding_all decide)

theorem c8_witness :
    exceptOk (fitInit (bp1 1) fidMM (bp1 0) cov0 (some m0) none "minuit") = true
    ∧ hlfitInit (bp1 1) fidMM (bp1 0) cov0 (some m0) none "minuit" (some cov0)
      = .error .assertionError :=
  ⟨(c8_construction_checks_amended (bp1 1) fidMM (bp1 0) cov0 m0 "minuit"
      rfl rfl rfl rfl rfl rfl rfl rfl rfl (Or.inl rfl)).1,
   (c8_construction_checks_amended (bp1 1) fidMM (bp1 0) cov0 m0 "minuit"
      rfl rfl rfl rfl rfl rfl rfl rfl rfl (Or.inl rfl)).2.1 cov0
      (by with_unfolding_all decide)⟩

end Afra
